import Mathlib

/-!
Verification of the formation lifecycle / procedural spawning engine of
`src/js/simulacra.js` (class `SolarisFormations`).

The JavaScript source is shallowly embedded below.  JavaScript numbers are
modelled as real numbers (`ℝ`), Three.js `Vector3` as a record of three reals,
and the mutable engine object as an explicit state record threaded through a
`update` step function.  Random draws (`Math.random()`) are modelled as oracle
parameters: each spawn receives a `SpawnDraw` record holding the raw uniform
draws the code consumes.  Scene-graph side effects that the claims talk about
(`scene.remove`, geometry/material `dispose`) are modelled as an event trace
emitted by each tick.  Formations additionally carry a ghost identifier `id`
(not present in the source, where object identity plays that role) so that
events can be attributed to individual instances.
-/

open scoped Classical

set_option linter.unnecessarySeqFocus false

namespace Simulacra

/-- Three.js `Vector3`, as used by `simulacra.js`: a triple of reals. -/
structure Vec3 where
  x : ℝ
  y : ℝ
  z : ℝ

/-- `Vector3.add` (componentwise addition). -/
noncomputable def Vec3.add (a b : Vec3) : Vec3 :=
  ⟨a.x + b.x, a.y + b.y, a.z + b.z⟩

/-- `Vector3.multiplyScalar` (componentwise scaling).  In the source this
mutates the receiver; the embedding is functional, and every use site below
passes the correct (possibly already-scaled) vector explicitly. -/
noncomputable def Vec3.smul (c : ℝ) (v : Vec3) : Vec3 :=
  ⟨c * v.x, c * v.y, c * v.z⟩

/-- `Vector3.length`. -/
noncomputable def Vec3.length (v : Vec3) : ℝ :=
  Real.sqrt (v.x ^ 2 + v.y ^ 2 + v.z ^ 2)

/-- `Vector3.normalize`: `divideScalar(length() || 1)`, so the zero vector is
left unchanged and any other vector is divided by its length. -/
noncomputable def Vec3.normalize (v : Vec3) : Vec3 :=
  if v.length = 0 then v else Vec3.smul (1 / v.length) v

/-- The per-formation mutable state: the fields of the Three.js group and of
its `userData` bag that the lifecycle engine reads or writes
(`simulacra.js` lines 476-485 and 492-553).  Fields that only affect
geometry/material construction or the visual scale/rotation animation
(`originalScale`, `rotationSpeed`, the per-type oscillation phases, ...) are
not modelled: no claim mentions them and they are never read by the spawn,
position, emergence or removal logic.  `uEmergence` is the value held by the
shared material uniform `uEmergence`; `id` is a ghost identifier. -/
structure Formation where
  id : ℕ
  age : ℝ
  lifespan : ℝ
  maxHeight : ℝ
  phase : ℝ
  basePosition : Vec3
  position : Vec3
  emergenceProgress : ℝ
  uEmergence : ℝ

/-- The piecewise emergence computation of `update`
(`simulacra.js` lines 502-511), as a function of
`lifecycle = age / lifespan`:

```js
if (lifecycle < 0.4) {
    userData.emergenceProgress = Math.pow(lifecycle / 0.4, 0.7);
} else if (lifecycle > 0.8) {
    const collapseProgress = (lifecycle - 0.8) / 0.2;
    userData.emergenceProgress = 1.0 - Math.pow(collapseProgress, 2);
} else {
    userData.emergenceProgress = 1.0;
}
```

`Math.pow(x, 0.7)` is real exponentiation (`Real.rpow`); `Math.pow(x, 2)`
agrees with the natural-number power `x ^ 2` on every real. -/
noncomputable def emergenceOf (lifecycle : ℝ) : ℝ :=
  if lifecycle < 0.4 then (lifecycle / 0.4) ^ (0.7 : ℝ)
  else if lifecycle > 0.8 then 1 - ((lifecycle - 0.8) / 0.2) ^ 2
  else 1

/-- One per-formation step of `update` (`simulacra.js` lines 499-544):
age and phase advance, emergence is recomputed, the position is rebuilt from
`basePosition`, and the new emergence is written to the `uEmergence` uniform.

Position dataflow from the source, lines 516-518 and 536-537:

```js
const surfaceHeight = userData.maxHeight * userData.emergenceProgress;
const normal = userData.basePosition.clone().normalize();
formation.position.copy(userData.basePosition)
                  .add(normal.multiplyScalar(surfaceHeight));
...
const breathe = Math.sin(userData.phase * 0.5) * 0.08 * userData.emergenceProgress;
formation.position.add(normal.clone().multiplyScalar(breathe));
```

`normal.multiplyScalar(surfaceHeight)` mutates `normal` in place, so by line
537 `normal` already holds `normalize(basePosition) * surfaceHeight`; the
breathing displacement is therefore `normalize(basePosition) * surfaceHeight *
breathe`, which the second `Vec3.smul` below reproduces.  The statements
between these lines (scale update, rotation, per-type animation) touch only
unmodelled fields. -/
noncomputable def stepFormation (dt : ℝ) (f : Formation) : Formation :=
  { f with
    age := f.age + dt
    phase := f.phase + dt * 0.3
    emergenceProgress := emergenceOf ((f.age + dt) / f.lifespan)
    uEmergence := emergenceOf ((f.age + dt) / f.lifespan)
    position :=
      (f.basePosition.add
        (Vec3.smul (f.maxHeight * emergenceOf ((f.age + dt) / f.lifespan))
          f.basePosition.normalize)).add
        (Vec3.smul
          (Real.sin ((f.phase + dt * 0.3) * 0.5) * 0.08 *
            emergenceOf ((f.age + dt) / f.lifespan))
          (Vec3.smul (f.maxHeight * emergenceOf ((f.age + dt) / f.lifespan))
            f.basePosition.normalize)) }

/-- The removal test of `update` (`simulacra.js` line 546), evaluated on the
already-stepped formation:
`userData.emergenceProgress <= 0.01 && userData.age > userData.lifespan * 0.8`. -/
def shouldRemove (f : Formation) : Prop :=
  f.emergenceProgress ≤ 0.01 ∧ f.age > f.lifespan * 0.8

/-- Render-backend side effects per disposal (`simulacra.js` lines 547-551):
`scene.remove(formation)` and the traversal that disposes every child's
geometry and material handles. -/
inductive REvent where
  | remove (id : ℕ)
  | release (id : ℕ)
deriving DecidableEq

/-- The formation an event belongs to. -/
def REvent.idOf : REvent → ℕ
  | .remove i => i
  | .release i => i

/-- The reverse-index loop of `update` (`simulacra.js` lines 495-554):
every formation is stepped; a formation meeting the removal test is spliced
out after `scene.remove` and the dispose traversal run, in that order.
The loop runs from the last index down to 0, so the emitted events of later
list elements precede those of earlier ones. -/
noncomputable def processList (dt : ℝ) : List Formation → List Formation × List REvent
  | [] => ([], [])
  | f :: rest =>
    let q := processList dt rest
    if shouldRemove (stepFormation dt f) then
      (q.1, q.2 ++ [REvent.remove f.id, REvent.release f.id])
    else
      (stepFormation dt f :: q.1, q.2)

/-- The raw `Math.random()` draws consumed by one spawn
(`selectWeightedFormation` line 32 and `addFormationToScene` lines 466-484),
each uniform in `[0, 1)`. -/
structure SpawnDraw where
  sel01 : ℝ
  phi01 : ℝ
  theta01 : ℝ
  phase01 : ℝ
  height01 : ℝ
  lifespan01 : ℝ

/-- The spherical placement of `addFormationToScene`
(`simulacra.js` lines 466-471):
`phi = Math.random() * Math.PI * 2`, `theta = Math.random() * Math.PI`, then
`x = r sin θ cos φ`, `y = r sin θ sin φ`, `z = r cos θ`. -/
noncomputable def placeOnSphere (r phi theta : ℝ) : Vec3 :=
  ⟨r * Real.sin theta * Real.cos phi,
   r * Real.sin theta * Real.sin phi,
   r * Real.cos theta⟩

/-- `addFormationToScene` (`simulacra.js` lines 465-490): position the fresh
formation on the sphere and initialise its `userData`
(`phase = rand * 2π`, `emergenceProgress = 0`, `maxHeight = 1 + rand * 2`,
`lifespan = 15 + rand * 30`, `age = 0`, `basePosition = position`).  The
`lookAt` call only sets the rotation and the initial scale is `0.01`, both
unmodelled.  The fresh material's `uEmergence` uniform starts at `0`
(line 45). -/
noncomputable def addFormationToScene (oceanRadius : ℝ) (i : ℕ) (d : SpawnDraw) :
    Formation :=
  { id := i
    age := 0
    lifespan := 15 + d.lifespan01 * 30
    maxHeight := 1 + d.height01 * 2
    phase := d.phase01 * (2 * Real.pi)
    basePosition := placeOnSphere oceanRadius (d.phi01 * (2 * Real.pi)) (d.theta01 * Real.pi)
    position := placeOnSphere oceanRadius (d.phi01 * (2 * Real.pi)) (d.theta01 * Real.pi)
    emergenceProgress := 0
    uEmergence := 0 }

/-- The engine state: the fields of `SolarisFormations` the lifecycle logic
uses (`simulacra.js` lines 4-13), plus the ghost id supply `nextId`. -/
structure EngineState where
  formations : List Formation
  spawnTimer : ℝ
  spawnInterval : ℝ
  maxFormations : ℕ
  oceanRadius : ℝ
  nextId : ℕ

/-- `update(deltaTime)` (`simulacra.js` lines 492-560): the timer accumulates,
every live formation is stepped (with removals spliced out), and afterwards
one spawn fires when the timer exceeds the interval *and* the live count is
below capacity; only then is the timer reset.  The new formation is pushed at
the end of the array.  Returns the emitted render-backend events. -/
noncomputable def update (dt : ℝ) (d : SpawnDraw) (s : EngineState) :
    EngineState × List REvent :=
  if s.spawnTimer + dt > s.spawnInterval ∧
      (processList dt s.formations).1.length < s.maxFormations then
    ({ s with
        formations := (processList dt s.formations).1 ++
          [addFormationToScene s.oceanRadius s.nextId d]
        spawnTimer := 0
        nextId := s.nextId + 1 },
      (processList dt s.formations).2)
  else
    ({ s with
        formations := (processList dt s.formations).1
        spawnTimer := s.spawnTimer + dt },
      (processList dt s.formations).2)

/-- Iterated `update` over a list of `(deltaTime, randomness)` inputs. -/
noncomputable def run : List (ℝ × SpawnDraw) → EngineState → EngineState
  | [], s => s
  | (dt, d) :: rest, s => run rest (update dt d s).1

/-- The per-tick event lists of an iterated run. -/
noncomputable def runTrace : List (ℝ × SpawnDraw) → EngineState → List (List REvent)
  | [], _ => []
  | (dt, d) :: rest, s => (update dt d s).2 :: runTrace rest (update dt d s).1

/-- Concatenation of a list of event lists. -/
def flat : List (List REvent) → List REvent
  | [] => []
  | l :: L => l ++ flat L

/-- The events of a trace that belong to formation `i`. -/
def eventsFor (i : ℕ) (evs : List REvent) : List REvent :=
  evs.filter (fun e => e.idOf == i)

/-- The ids of the live formations. -/
def liveIds (s : EngineState) : List ℕ :=
  s.formations.map Formation.id

/-- Ghost-state well-formedness: live ids are distinct and below the id
supply.  It holds for the constructed engine and is preserved by `update`. -/
def WF (s : EngineState) : Prop :=
  (liveIds s).Nodup ∧ ∀ i ∈ liveIds s, i < s.nextId

/-- The constructor (`simulacra.js` lines 4-13 and `createInitialFormations`
lines 15-28): `maxFormations = 5`, `spawnTimer = 0`, `spawnInterval = 8.0`,
and exactly `maxFormations` formations are created up front. -/
noncomputable def initEngine (oceanRadius : ℝ) (draws : ℕ → SpawnDraw) : EngineState :=
  { formations := (List.range 5).map (fun i => addFormationToScene oceanRadius i (draws i))
    spawnTimer := 0
    spawnInterval := 8
    maxFormations := 5
    oceanRadius := oceanRadius
    nextId := 5 }

/-- `types.reduce((sum, t) => sum + t.weight, 0)` (`simulacra.js` line 31). -/
noncomputable def totalWeight (ws : List ℝ) : ℝ :=
  ws.foldl (· + ·) 0

/-- The subtraction loop of `selectWeightedFormation`
(`simulacra.js` lines 34-37): subtract weights in catalog order and return the
index at which the running remainder first drops to `≤ 0`. -/
noncomputable def selectLoop : List ℝ → ℝ → Option ℕ
  | [], _ => none
  | w :: rest, r =>
    if r - w ≤ 0 then some 0 else (selectLoop rest (r - w)).map Nat.succ

/-- `selectWeightedFormation` (`simulacra.js` lines 30-39) applied to a draw
`u = Math.random() * totalWeight`, returning the index of the selected
archetype; the fallback `return types[0].fn()` on loop exhaustion is index 0. -/
noncomputable def selectWeightedFormation (ws : List ℝ) (u : ℝ) : ℕ :=
  (selectLoop ws u).getD 0

/-- The shipped catalog weights `[3, 2, 2, 1, 1]` for symmetriad, asymmetriad,
mimoid, vertebrid, extensor (`simulacra.js` lines 16-22 and 563-569). -/
noncomputable def shippedWeights : List ℝ :=
  [3, 2, 2, 1, 1]

/-- The emergence curve transcribed from the words of spec §4.2, with the
shipped constants `p_emerge = 0.4`, `k = 0.7`, `p_dissolve = 0.8`, `m = 2`:
emerging for `progress < p_emerge` with `(progress / p_emerge)^k`; sustained,
exactly 1, for `p_emerge ≤ progress ≤ p_dissolve`; dissolving for
`progress > p_dissolve` with `1 - ((progress - p_dissolve)/(1 - p_dissolve))^m`.
To be compared with `emergenceOf`, which is translated from the source. -/
noncomputable def emergenceSpec (progress : ℝ) : ℝ :=
  if progress < 0.4 then (progress / 0.4) ^ (0.7 : ℝ)
  else if progress ≤ 0.8 then 1
  else 1 - ((progress - 0.8) / (1 - 0.8)) ^ 2

/-- The per-tick position formula asserted by the claim / spec §4.2 step 4:
`position = basePosition + surfaceNormal * (maxHeight * emergence +
amplitude * sin(phase) * emergence)` for a fixed amplitude, read charitably
with the source's breathing phase `sin(phase * 0.5)`.  Evaluated on the
already-stepped formation.  To be compared with the position actually
computed by `stepFormation`. -/
noncomputable def claimedPosition (amplitude : ℝ) (f : Formation) : Vec3 :=
  f.basePosition.add
    (Vec3.smul
      (f.maxHeight * f.emergenceProgress +
        amplitude * Real.sin (f.phase * 0.5) * f.emergenceProgress)
      f.basePosition.normalize)

/-- A fixed spawn draw (all raw uniforms 0), used for concrete evaluations. -/
noncomputable def d0 : SpawnDraw :=
  { sel01 := 0, phi01 := 0, theta01 := 0, phase01 := 0, height01 := 0, lifespan01 := 0 }

/-- A constant oracle of spawn draws. -/
noncomputable def draws0 : ℕ → SpawnDraw := fun _ => d0

/-- A freshly spawned formation (`age = 0`, `lifespan = 10`), used to witness
what a single long tick does to the emergence value. -/
noncomputable def fFresh : Formation :=
  { id := 0, age := 0, lifespan := 10, maxHeight := 1, phase := 0,
    basePosition := ⟨5, 0, 0⟩, position := ⟨5, 0, 0⟩,
    emergenceProgress := 0, uEmergence := 0 }

/-- A mid-life, sustained-phase formation (`age = 50`, `lifespan = 100`). -/
noncomputable def fSus : Formation :=
  { id := 0, age := 50, lifespan := 100, maxHeight := 1, phase := 0,
    basePosition := ⟨5, 0, 0⟩, position := ⟨5, 0, 0⟩,
    emergenceProgress := 1, uEmergence := 1 }

/-- Sustained-phase formation with a chosen ghost id. -/
noncomputable def fSusAt (k : ℕ) : Formation :=
  { fSus with id := k }

/-- An end-of-life formation (`age = lifespan = 100`). -/
noncomputable def fDead : Formation :=
  { id := 0, age := 100, lifespan := 100, maxHeight := 1, phase := 0,
    basePosition := ⟨5, 0, 0⟩, position := ⟨5, 0, 0⟩,
    emergenceProgress := 1, uEmergence := 1 }

/-- Engine state holding one end-of-life formation. -/
noncomputable def sDead : EngineState :=
  { formations := [fDead], spawnTimer := 0, spawnInterval := 8,
    maxFormations := 5, oceanRadius := 5, nextId := 1 }

/-- Engine state at capacity (five sustained formations) whose spawn timer is
about to exceed the interval. -/
noncomputable def sFull : EngineState :=
  { formations := [fSusAt 0, fSusAt 1, fSusAt 2, fSusAt 3, fSusAt 4],
    spawnTimer := 8, spawnInterval := 8,
    maxFormations := 5, oceanRadius := 5, nextId := 5 }

/-- A sustained formation whose phase reaches `π` after one tick, with
`maxHeight = 2`; the tick makes `sin(phase * 0.5) = 1`. -/
noncomputable def fBreatheA : Formation :=
  { id := 0, age := 49, lifespan := 100, maxHeight := 2, phase := Real.pi - 0.3,
    basePosition := ⟨5, 0, 0⟩, position := ⟨5, 0, 0⟩,
    emergenceProgress := 1, uEmergence := 1 }

/-- Same as `fBreatheA` but with `maxHeight = 1`. -/
noncomputable def fBreatheB : Formation :=
  { fBreatheA with maxHeight := 1 }

/-! ### Accessor lemmas for the step function -/

@[simp] lemma stepFormation_id (dt : ℝ) (f : Formation) :
    (stepFormation dt f).id = f.id := rfl

@[simp] lemma stepFormation_age (dt : ℝ) (f : Formation) :
    (stepFormation dt f).age = f.age + dt := rfl

@[simp] lemma stepFormation_lifespan (dt : ℝ) (f : Formation) :
    (stepFormation dt f).lifespan = f.lifespan := rfl

@[simp] lemma stepFormation_maxHeight (dt : ℝ) (f : Formation) :
    (stepFormation dt f).maxHeight = f.maxHeight := rfl

@[simp] lemma stepFormation_phase (dt : ℝ) (f : Formation) :
    (stepFormation dt f).phase = f.phase + dt * 0.3 := rfl

@[simp] lemma stepFormation_basePosition (dt : ℝ) (f : Formation) :
    (stepFormation dt f).basePosition = f.basePosition := rfl

@[simp] lemma stepFormation_emergenceProgress (dt : ℝ) (f : Formation) :
    (stepFormation dt f).emergenceProgress =
      emergenceOf ((f.age + dt) / f.lifespan) := rfl

@[simp] lemma stepFormation_uEmergence (dt : ℝ) (f : Formation) :
    (stepFormation dt f).uEmergence =
      emergenceOf ((f.age + dt) / f.lifespan) := rfl

/-! ### The emergence curve -/

lemma emergenceOf_of_lt (p : ℝ) (h : p < 0.4) :
    emergenceOf p = (p / 0.4) ^ (0.7 : ℝ) := by
  simp [emergenceOf, if_pos h]

lemma emergenceOf_of_mid (p : ℝ) (h1 : 0.4 ≤ p) (h2 : p ≤ 0.8) :
    emergenceOf p = 1 := by
  rw [emergenceOf, if_neg (not_lt.mpr h1), if_neg (not_lt.mpr h2)]

lemma emergenceOf_of_gt (p : ℝ) (h : 0.8 < p) :
    emergenceOf p = 1 - ((p - 0.8) / 0.2) ^ 2 := by
  rw [emergenceOf, if_neg (by push_neg; linarith), if_pos h]

lemma emergenceOf_le_one (p : ℝ) (h : 0 ≤ p) : emergenceOf p ≤ 1 := by
  rcases lt_or_le p 0.4 with hlt | hge
  · rw [emergenceOf_of_lt p hlt]
    exact Real.rpow_le_one (by positivity) (by rw [div_le_one (by norm_num)]; linarith)
      (by norm_num)
  · rcases le_or_lt p 0.8 with hmid | hgt
    · rw [emergenceOf_of_mid p hge hmid]
    · rw [emergenceOf_of_gt p hgt]
      nlinarith [sq_nonneg ((p - 0.8) / 0.2)]

lemma emergenceOf_nonneg (p : ℝ) (h0 : 0 ≤ p) (h1 : p ≤ 1) : 0 ≤ emergenceOf p := by
  rcases lt_or_le p 0.4 with hlt | hge
  · rw [emergenceOf_of_lt p hlt]
    exact Real.rpow_nonneg (by positivity) _
  · rcases le_or_lt p 0.8 with hmid | hgt
    · rw [emergenceOf_of_mid p hge hmid]; norm_num
    · rw [emergenceOf_of_gt p hgt]
      have hcp : (p - 0.8) / 0.2 ≤ 1 := by rw [div_le_one (by norm_num)]; linarith
      have hcp0 : 0 ≤ (p - 0.8) / 0.2 := div_nonneg (by linarith) (by norm_num)
      nlinarith

lemma emergenceOf_neg (p : ℝ) (h : 1 < p) : emergenceOf p < 0 := by
  rw [emergenceOf_of_gt p (by linarith)]
  have hcp : 1 < (p - 0.8) / 0.2 := by rw [lt_div_iff₀ (by norm_num)]; linarith
  nlinarith

lemma emergenceOf_one : emergenceOf 1 = 0 := by
  rw [emergenceOf_of_gt 1 (by norm_num)]
  norm_num

/-- The source curve coincides everywhere with the curve transcribed from the
spec's words. -/
lemma emergenceOf_eq_emergenceSpec (p : ℝ) : emergenceOf p = emergenceSpec p := by
  unfold emergenceOf emergenceSpec
  rcases lt_or_le p 0.4 with h | h
  · rw [if_pos h, if_pos h]
  · rw [if_neg (not_lt.mpr h), if_neg (not_lt.mpr h)]
    rcases le_or_lt p 0.8 with h2 | h2
    · rw [if_neg (not_lt.mpr h2), if_pos h2]
    · rw [if_pos h2, if_neg (not_le.mpr h2)]
      norm_num

/-! ### Vectors and the position computation -/

@[ext] lemma Vec3.ext (a b : Vec3) (hx : a.x = b.x) (hy : a.y = b.y) (hz : a.z = b.z) :
    a = b := by
  cases a; cases b; simp_all

lemma Vec3.length_nonneg (v : Vec3) : 0 ≤ v.length :=
  Real.sqrt_nonneg _

lemma Vec3.length_smul (c : ℝ) (v : Vec3) :
    (Vec3.smul c v).length = |c| * v.length := by
  unfold Vec3.length Vec3.smul
  rw [show (c * v.x) ^ 2 + (c * v.y) ^ 2 + (c * v.z) ^ 2
      = c ^ 2 * (v.x ^ 2 + v.y ^ 2 + v.z ^ 2) by ring,
    Real.sqrt_mul (sq_nonneg c), Real.sqrt_sq_eq_abs]

lemma Vec3.length_normalize (v : Vec3) (h : v.length ≠ 0) :
    v.normalize.length = 1 := by
  have hpos : 0 < v.length := lt_of_le_of_ne (Vec3.length_nonneg v) (Ne.symm h)
  unfold Vec3.normalize
  rw [if_neg h, Vec3.length_smul, abs_of_nonneg (by positivity)]
  field_simp

/-- The net effect of the position dataflow of `update` lines 516-518 and
536-537: because `normal` is mutated to `normal * surfaceHeight` before the
breathing add, the final position is
`basePosition + normalize(basePosition) * (maxHeight * emergence *
(1 + sin(phase * 0.5) * 0.08 * emergence))` with the already-updated phase and
emergence. -/
lemma stepFormation_position_eq (dt : ℝ) (f : Formation) :
    (stepFormation dt f).position =
      f.basePosition.add
        (Vec3.smul
          (f.maxHeight * emergenceOf ((f.age + dt) / f.lifespan) *
            (1 + Real.sin ((f.phase + dt * 0.3) * 0.5) * 0.08 *
              emergenceOf ((f.age + dt) / f.lifespan)))
          f.basePosition.normalize) := by
  show ((f.basePosition.add _).add _) = _
  ext <;> simp [Vec3.add, Vec3.smul] <;> ring

lemma stepFormation_position_of_emergence_zero (dt : ℝ) (f : Formation)
    (h : emergenceOf ((f.age + dt) / f.lifespan) = 0) :
    (stepFormation dt f).position = f.basePosition := by
  rw [stepFormation_position_eq, h]
  ext <;> simp [Vec3.add, Vec3.smul]

/-! ### The per-tick removal loop -/

lemma processList_nil (dt : ℝ) : processList dt [] = ([], []) := rfl

lemma processList_cons_removed (dt : ℝ) (f : Formation) (rest : List Formation)
    (h : shouldRemove (stepFormation dt f)) :
    processList dt (f :: rest) =
      ((processList dt rest).1,
        (processList dt rest).2 ++ [REvent.remove f.id, REvent.release f.id]) := by
  simp only [processList]
  rw [if_pos h]

lemma processList_cons_kept (dt : ℝ) (f : Formation) (rest : List Formation)
    (h : ¬ shouldRemove (stepFormation dt f)) :
    processList dt (f :: rest) =
      (stepFormation dt f :: (processList dt rest).1, (processList dt rest).2) := by
  simp only [processList]
  rw [if_neg h]

/-- Surviving ids form a sublist of the original ids (order preserved, no new
ids, no duplication introduced). -/
lemma processList_map_id_sublist (dt : ℝ) (fs : List Formation) :
    ((processList dt fs).1.map Formation.id).Sublist (fs.map Formation.id) := by
  induction fs with
  | nil => simp [processList_nil]
  | cons f rest ih =>
    by_cases h : shouldRemove (stepFormation dt f)
    · rw [processList_cons_removed dt f rest h]
      exact ih.cons f.id
    · rw [processList_cons_kept dt f rest h]
      simpa using ih.cons₂ f.id

lemma processList_length_le (dt : ℝ) (fs : List Formation) :
    (processList dt fs).1.length ≤ fs.length := by
  have h := (processList_map_id_sublist dt fs).length_le
  simpa using h

/-- Every emitted event belongs to one of the processed formations. -/
lemma processList_events_idOf_mem (dt : ℝ) (fs : List Formation) (e : REvent)
    (he : e ∈ (processList dt fs).2) : e.idOf ∈ fs.map Formation.id := by
  induction fs with
  | nil => simp [processList_nil] at he
  | cons f rest ih =>
    by_cases h : shouldRemove (stepFormation dt f)
    · rw [processList_cons_removed dt f rest h] at he
      rcases List.mem_append.mp he with h1 | h1
      · exact List.mem_cons_of_mem _ (ih h1)
      · simp only [List.mem_cons, List.not_mem_nil, or_false] at h1
        rcases h1 with rfl | rfl
        · simp [REvent.idOf]
        · simp [REvent.idOf]
    · rw [processList_cons_kept dt f rest h] at he
      exact List.mem_cons_of_mem _ (ih he)

lemma eventsFor_append (i : ℕ) (a b : List REvent) :
    eventsFor i (a ++ b) = eventsFor i a ++ eventsFor i b :=
  List.filter_append a b

/-- Formations never processed produce no events. -/
lemma eventsFor_processList_of_not_mem (dt : ℝ) (fs : List Formation) (i : ℕ)
    (hi : i ∉ fs.map Formation.id) : eventsFor i (processList dt fs).2 = [] := by
  rw [eventsFor, List.filter_eq_nil_iff]
  intro e he
  simp only [beq_iff_eq]
  intro hcontra
  exact hi (hcontra ▸ processList_events_idOf_mem dt fs e he)

/-- With distinct ids, the events attributed to a live formation on a tick are
exactly `[remove, release]` when it meets the removal test, else none. -/
lemma eventsFor_processList (dt : ℝ) (fs : List Formation) (f : Formation)
    (hnd : (fs.map Formation.id).Nodup) (hf : f ∈ fs) :
    eventsFor f.id (processList dt fs).2 =
      if shouldRemove (stepFormation dt f) then
        [REvent.remove f.id, REvent.release f.id]
      else [] := by
  induction fs with
  | nil => cases hf
  | cons g rest ih =>
    have hnd' : (rest.map Formation.id).Nodup := (List.nodup_cons.mp hnd).2
    have hgrest : g.id ∉ rest.map Formation.id := (List.nodup_cons.mp hnd).1
    rcases List.mem_cons.mp hf with rfl | hfr
    · by_cases h : shouldRemove (stepFormation dt f)
      · rw [processList_cons_removed dt f rest h, eventsFor_append,
          eventsFor_processList_of_not_mem dt rest f.id hgrest, if_pos h]
        simp [eventsFor, REvent.idOf]
      · rw [processList_cons_kept dt f rest h,
          eventsFor_processList_of_not_mem dt rest f.id hgrest, if_neg h]
    · have hne : f.id ≠ g.id := by
        intro hcontra
        exact hgrest (hcontra ▸ List.mem_map_of_mem Formation.id hfr)
      by_cases h : shouldRemove (stepFormation dt g)
      · rw [processList_cons_removed dt g rest h, eventsFor_append, ih hnd' hfr]
        have : eventsFor f.id [REvent.remove g.id, REvent.release g.id] = [] := by
          simp [eventsFor, REvent.idOf, Ne.symm hne]
        rw [this, List.append_nil]
      · rw [processList_cons_kept dt g rest h, ih hnd' hfr]

/-- With distinct ids, a live formation survives the tick iff it does not meet
the removal test. -/
lemma id_mem_processList_iff (dt : ℝ) (fs : List Formation) (f : Formation)
    (hnd : (fs.map Formation.id).Nodup) (hf : f ∈ fs) :
    f.id ∈ (processList dt fs).1.map Formation.id ↔
      ¬ shouldRemove (stepFormation dt f) := by
  induction fs with
  | nil => cases hf
  | cons g rest ih =>
    have hnd' : (rest.map Formation.id).Nodup := (List.nodup_cons.mp hnd).2
    have hgrest : g.id ∉ rest.map Formation.id := (List.nodup_cons.mp hnd).1
    rcases List.mem_cons.mp hf with rfl | hfr
    · by_cases h : shouldRemove (stepFormation dt f)
      · rw [processList_cons_removed dt f rest h]
        simp only [h, not_true_eq_false, iff_false]
        intro hmem
        exact hgrest ((processList_map_id_sublist dt rest).subset hmem)
      · rw [processList_cons_kept dt f rest h]
        simp [h]
    · have hne : f.id ≠ g.id := by
        intro hcontra
        exact hgrest (hcontra ▸ List.mem_map_of_mem Formation.id hfr)
      by_cases h : shouldRemove (stepFormation dt g)
      · rw [processList_cons_removed dt g rest h]
        exact ih hnd' hfr
      · rw [processList_cons_kept dt g rest h]
        simp only [List.map_cons, stepFormation_id, List.mem_cons]
        rw [or_iff_right hne]
        exact ih hnd' hfr

/-- A strict shrink of the live list means some formation met the removal
test this tick. -/
lemma processList_length_lt (dt : ℝ) (fs : List Formation)
    (h : (processList dt fs).1.length < fs.length) :
    ∃ f ∈ fs, shouldRemove (stepFormation dt f) := by
  induction fs with
  | nil => simp [processList_nil] at h
  | cons f rest ih =>
    by_cases hr : shouldRemove (stepFormation dt f)
    · exact ⟨f, List.mem_cons_self f rest, hr⟩
    · rw [processList_cons_kept dt f rest hr] at h
      simp only [List.length_cons, Nat.add_lt_add_iff_right] at h
      obtain ⟨g, hg, hgr⟩ := ih h
      exact ⟨g, List.mem_cons_of_mem f hg, hgr⟩

/-! ### The tick function -/

@[simp] lemma addFormationToScene_id (r : ℝ) (i : ℕ) (d : SpawnDraw) :
    (addFormationToScene r i d).id = i := rfl

lemma update_def_pos (dt : ℝ) (d : SpawnDraw) (s : EngineState)
    (h : s.spawnTimer + dt > s.spawnInterval ∧
      (processList dt s.formations).1.length < s.maxFormations) :
    update dt d s =
      ({ s with
          formations := (processList dt s.formations).1 ++
            [addFormationToScene s.oceanRadius s.nextId d]
          spawnTimer := 0
          nextId := s.nextId + 1 },
        (processList dt s.formations).2) := by
  unfold update
  rw [if_pos h]

lemma update_def_neg (dt : ℝ) (d : SpawnDraw) (s : EngineState)
    (h : ¬ (s.spawnTimer + dt > s.spawnInterval ∧
      (processList dt s.formations).1.length < s.maxFormations)) :
    update dt d s =
      ({ s with
          formations := (processList dt s.formations).1
          spawnTimer := s.spawnTimer + dt },
        (processList dt s.formations).2) := by
  unfold update
  rw [if_neg h]

lemma update_snd (dt : ℝ) (d : SpawnDraw) (s : EngineState) :
    (update dt d s).2 = (processList dt s.formations).2 := by
  unfold update
  split <;> rfl

@[simp] lemma update_maxFormations (dt : ℝ) (d : SpawnDraw) (s : EngineState) :
    (update dt d s).1.maxFormations = s.maxFormations := by
  unfold update
  split <;> rfl

lemma update_nextId_le (dt : ℝ) (d : SpawnDraw) (s : EngineState) :
    s.nextId ≤ (update dt d s).1.nextId := by
  unfold update
  split
  · exact Nat.le_succ s.nextId
  · exact le_refl s.nextId

lemma mem_liveIds_update (dt : ℝ) (d : SpawnDraw) (s : EngineState) (i : ℕ)
    (hi : i ∈ liveIds (update dt d s).1) :
    i ∈ (processList dt s.formations).1.map Formation.id ∨ i = s.nextId := by
  by_cases h : s.spawnTimer + dt > s.spawnInterval ∧
      (processList dt s.formations).1.length < s.maxFormations
  · rw [update_def_pos dt d s h] at hi
    simp only [liveIds, List.map_append, List.map_cons, List.map_nil,
      addFormationToScene_id, List.mem_append, List.mem_cons, List.not_mem_nil,
      or_false] at hi
    exact hi
  · rw [update_def_neg dt d s h] at hi
    exact Or.inl hi

/-- `update` preserves ghost well-formedness. -/
lemma WF_update (dt : ℝ) (d : SpawnDraw) (s : EngineState) (h : WF s) :
    WF (update dt d s).1 := by
  obtain ⟨hnd, hlt⟩ := h
  have hsub := processList_map_id_sublist dt s.formations
  have hnd' : ((processList dt s.formations).1.map Formation.id).Nodup :=
    hnd.sublist hsub
  have hmem : ∀ i ∈ (processList dt s.formations).1.map Formation.id, i < s.nextId :=
    fun i hi => hlt i (hsub.subset hi)
  by_cases hc : s.spawnTimer + dt > s.spawnInterval ∧
      (processList dt s.formations).1.length < s.maxFormations
  · rw [update_def_pos dt d s hc]
    constructor
    · show ((processList dt s.formations).1 ++ [addFormationToScene _ _ _]).map
        Formation.id |>.Nodup
      rw [List.map_append]
      refine List.nodup_append.mpr ⟨hnd', by simp, ?_⟩
      intro a ha hb
      simp only [List.map_cons, List.map_nil, addFormationToScene_id,
        List.mem_cons, List.not_mem_nil, or_false] at hb
      subst hb
      exact absurd (hmem _ ha) (lt_irrefl _)
    · intro i hi
      simp only [liveIds, List.map_append, List.map_cons, List.map_nil,
        addFormationToScene_id, List.mem_append, List.mem_cons, List.not_mem_nil,
        or_false] at hi
      rcases hi with hi | rfl
      · exact Nat.lt_succ_of_lt (hmem i hi)
      · exact Nat.lt_succ_self _
  · rw [update_def_neg dt d s hc]
    exact ⟨hnd', fun i hi => hmem i hi⟩

/-! ### Iterated runs -/

lemma run_nil (s : EngineState) : run [] s = s := rfl

lemma run_cons (dt : ℝ) (d : SpawnDraw) (rest : List (ℝ × SpawnDraw))
    (s : EngineState) : run ((dt, d) :: rest) s = run rest (update dt d s).1 := rfl

lemma runTrace_nil (s : EngineState) : runTrace [] s = [] := rfl

lemma runTrace_cons (dt : ℝ) (d : SpawnDraw) (rest : List (ℝ × SpawnDraw))
    (s : EngineState) :
    runTrace ((dt, d) :: rest) s =
      (update dt d s).2 :: runTrace rest (update dt d s).1 := rfl

lemma WF_run (inputs : List (ℝ × SpawnDraw)) :
    ∀ s : EngineState, WF s → WF (run inputs s) := by
  induction inputs with
  | nil => exact fun s h => h
  | cons p rest ih =>
    obtain ⟨dt, d⟩ := p
    intro s h
    rw [run_cons]
    exact ih _ (WF_update dt d s h)

lemma run_nextId_le (inputs : List (ℝ × SpawnDraw)) :
    ∀ s : EngineState, s.nextId ≤ (run inputs s).nextId := by
  induction inputs with
  | nil => exact fun s => le_refl _
  | cons p rest ih =>
    obtain ⟨dt, d⟩ := p
    intro s
    rw [run_cons]
    exact le_trans (update_nextId_le dt d s) (ih _)

/-- Once a formation id is dead (not live, already allocated), it never emits
another event and never comes back to life: spawns always use fresh ids. -/
lemma dead_forever (inputs : List (ℝ × SpawnDraw)) :
    ∀ (s : EngineState) (i : ℕ), WF s → i < s.nextId → i ∉ liveIds s →
      (∀ evs ∈ runTrace inputs s, eventsFor i evs = []) ∧
        i ∉ liveIds (run inputs s) ∧ i < (run inputs s).nextId := by
  induction inputs with
  | nil =>
    intro s i _ h2 h3
    refine ⟨?_, h3, h2⟩
    intro evs hevs
    simp [runTrace_nil] at hevs
  | cons p rest ih =>
    obtain ⟨dt, d⟩ := p
    intro s i hW hlt hdead
    have h1 : eventsFor i (update dt d s).2 = [] := by
      rw [update_snd]
      exact eventsFor_processList_of_not_mem dt s.formations i hdead
    have hdead' : i ∉ liveIds (update dt d s).1 := by
      intro hcontra
      rcases mem_liveIds_update dt d s i hcontra with hm | rfl
      · exact hdead ((processList_map_id_sublist dt s.formations).subset hm)
      · exact absurd hlt (lt_irrefl _)
    have hlt' : i < (update dt d s).1.nextId :=
      lt_of_lt_of_le hlt (update_nextId_le dt d s)
    obtain ⟨ha, hb, hc⟩ := ih (update dt d s).1 i (WF_update dt d s hW) hlt' hdead'
    refine ⟨?_, hb, hc⟩
    intro evs hevs
    rw [runTrace_cons] at hevs
    rcases List.mem_cons.mp hevs with rfl | hm
    · exact h1
    · exact ha evs hm

lemma flat_nil : flat [] = [] := rfl

lemma flat_cons (l : List REvent) (L : List (List REvent)) :
    flat (l :: L) = l ++ flat L := rfl

lemma eventsFor_flat_nil (i : ℕ) (L : List (List REvent))
    (h : ∀ l ∈ L, eventsFor i l = []) : eventsFor i (flat L) = [] := by
  induction L with
  | nil => rfl
  | cons l L ih =>
    rw [flat_cons, eventsFor_append, h l (List.mem_cons_self l L),
      ih (fun l2 hl2 => h l2 (List.mem_cons_of_mem l hl2))]
    rfl

/-- On a single well-formed tick, the events attributed to any id are either
none or exactly one ordered `[remove, release]` pair. -/
lemma eventsFor_update_dichotomy (dt : ℝ) (d : SpawnDraw) (s : EngineState)
    (i : ℕ) (hW : WF s) :
    eventsFor i (update dt d s).2 = [] ∨
      eventsFor i (update dt d s).2 = [REvent.remove i, REvent.release i] := by
  rw [update_snd]
  by_cases hmem : i ∈ s.formations.map Formation.id
  · obtain ⟨f, hf, rfl⟩ := List.mem_map.mp hmem
    rw [eventsFor_processList dt s.formations f hW.1 hf]
    by_cases h : shouldRemove (stepFormation dt f)
    · rw [if_pos h]; exact Or.inr rfl
    · rw [if_neg h]; exact Or.inl rfl
  · exact Or.inl (eventsFor_processList_of_not_mem dt s.formations i hmem)

/-- An id that emits an event on a tick was live at its start and is dead
(and still below the id supply) at its end. -/
lemma removed_event_dead (dt : ℝ) (d : SpawnDraw) (s : EngineState) (i : ℕ)
    (hW : WF s) (h : eventsFor i (update dt d s).2 ≠ []) :
    i ∈ s.formations.map Formation.id ∧ i ∉ liveIds (update dt d s).1 ∧
      i < (update dt d s).1.nextId := by
  rw [update_snd] at h
  by_cases hmem : i ∈ s.formations.map Formation.id
  · obtain ⟨f, hf, rfl⟩ := List.mem_map.mp hmem
    rw [eventsFor_processList dt s.formations f hW.1 hf] at h
    by_cases hr : shouldRemove (stepFormation dt f)
    · have hnotmem : f.id ∉ (processList dt s.formations).1.map Formation.id :=
        fun hc => ((id_mem_processList_iff dt s.formations f hW.1 hf).mp hc) hr
      have hltid : f.id < s.nextId := hW.2 f.id hmem
      refine ⟨hmem, ?_, lt_of_lt_of_le hltid (update_nextId_le dt d s)⟩
      intro hc
      rcases mem_liveIds_update dt d s f.id hc with hm | heq
      · exact hnotmem hm
      · exact absurd (heq ▸ hltid) (lt_irrefl _)
    · rw [if_neg hr] at h
      exact absurd rfl h
  · exact absurd (eventsFor_processList_of_not_mem dt s.formations i hmem) h

/-- Over any well-formed run, the whole trace attributes to each id either no
event or exactly one `[remove, release]` pair. -/
lemma trace_flat_dichotomy (inputs : List (ℝ × SpawnDraw)) :
    ∀ (s : EngineState) (i : ℕ), WF s →
      eventsFor i (flat (runTrace inputs s)) = [] ∨
        eventsFor i (flat (runTrace inputs s)) =
          [REvent.remove i, REvent.release i] := by
  induction inputs with
  | nil =>
    intro s i _
    rw [runTrace_nil, flat_nil]
    exact Or.inl rfl
  | cons p rest ih =>
    obtain ⟨dt, d⟩ := p
    intro s i hW
    rw [runTrace_cons, flat_cons, eventsFor_append]
    rcases eventsFor_update_dichotomy dt d s i hW with h | h
    · rw [h, List.nil_append]
      exact ih (update dt d s).1 i (WF_update dt d s hW)
    · have hne : eventsFor i (update dt d s).2 ≠ [] := by rw [h]; simp
      obtain ⟨_, hdead, hlt⟩ := removed_event_dead dt d s i hW hne
      have hrest := (dead_forever rest (update dt d s).1 i
        (WF_update dt d s hW) hlt hdead).1
      rw [h, eventsFor_flat_nil i _ hrest, List.append_nil]
      exact Or.inr rfl

/-- Same dichotomy for every individual tick of a run. -/
lemma trace_tick_dichotomy (inputs : List (ℝ × SpawnDraw)) :
    ∀ (s : EngineState) (i : ℕ), WF s → ∀ evs ∈ runTrace inputs s,
      eventsFor i evs = [] ∨ eventsFor i evs = [REvent.remove i, REvent.release i] := by
  induction inputs with
  | nil =>
    intro s i _ evs hevs
    simp [runTrace_nil] at hevs
  | cons p rest ih =>
    obtain ⟨dt, d⟩ := p
    intro s i hW evs hevs
    rw [runTrace_cons] at hevs
    rcases List.mem_cons.mp hevs with rfl | hm
    · exact eventsFor_update_dichotomy dt d s i hW
    · exact ih (update dt d s).1 i (WF_update dt d s hW) evs hm

/-! ### Population bounds -/

lemma update_length_le (dt : ℝ) (d : SpawnDraw) (s : EngineState)
    (h : s.formations.length ≤ s.maxFormations) :
    (update dt d s).1.formations.length ≤ s.maxFormations := by
  by_cases hc : s.spawnTimer + dt > s.spawnInterval ∧
      (processList dt s.formations).1.length < s.maxFormations
  · rw [update_def_pos dt d s hc]
    simp only [List.length_append, List.length_cons, List.length_nil]
    omega
  · rw [update_def_neg dt d s hc]
    exact le_trans (processList_length_le dt s.formations) h

lemma run_length_le (inputs : List (ℝ × SpawnDraw)) :
    ∀ s : EngineState, s.formations.length ≤ s.maxFormations →
      (run inputs s).formations.length ≤ s.maxFormations := by
  induction inputs with
  | nil => exact fun s h => h
  | cons p rest ih =>
    obtain ⟨dt, d⟩ := p
    intro s h
    rw [run_cons]
    have h1 : (update dt d s).1.formations.length ≤ (update dt d s).1.maxFormations := by
      rw [update_maxFormations]
      exact update_length_le dt d s h
    have h2 := ih (update dt d s).1 h1
    rwa [update_maxFormations] at h2

lemma update_no_spawn_at_capacity (dt : ℝ) (d : SpawnDraw) (s : EngineState)
    (h : s.maxFormations ≤ (processList dt s.formations).1.length) :
    update dt d s =
      ({ s with
          formations := (processList dt s.formations).1
          spawnTimer := s.spawnTimer + dt },
        (processList dt s.formations).2) :=
  update_def_neg dt d s (fun hc => absurd hc.2 (not_lt.mpr h))

/-! ### The constructed engine -/

lemma initEngine_formations_length (r : ℝ) (draws : ℕ → SpawnDraw) :
    (initEngine r draws).formations.length = 5 := by
  simp [initEngine]

lemma initEngine_maxFormations (r : ℝ) (draws : ℕ → SpawnDraw) :
    (initEngine r draws).maxFormations = 5 := rfl

lemma liveIds_initEngine (r : ℝ) (draws : ℕ → SpawnDraw) :
    liveIds (initEngine r draws) = List.range 5 := by
  simp [liveIds, initEngine, List.map_map]
  rfl

lemma WF_initEngine (r : ℝ) (draws : ℕ → SpawnDraw) : WF (initEngine r draws) := by
  constructor
  · rw [liveIds_initEngine]
    exact List.nodup_range 5
  · intro i hi
    rw [liveIds_initEngine] at hi
    exact List.mem_range.mp hi

/-! ### Evaluation on the concrete example states -/

lemma fSusAt_not_removed (k : ℕ) : ¬ shouldRemove (stepFormation 1 (fSusAt k)) := by
  intro h
  have h2 := h.2
  simp only [stepFormation_age, stepFormation_lifespan] at h2
  norm_num [fSusAt, fSus] at h2

lemma processList_sFull :
    processList 1 sFull.formations =
      ([stepFormation 1 (fSusAt 0), stepFormation 1 (fSusAt 1),
        stepFormation 1 (fSusAt 2), stepFormation 1 (fSusAt 3),
        stepFormation 1 (fSusAt 4)], []) := by
  show processList 1 [fSusAt 0, fSusAt 1, fSusAt 2, fSusAt 3, fSusAt 4] = _
  rw [processList_cons_kept _ _ _ (fSusAt_not_removed 0),
    processList_cons_kept _ _ _ (fSusAt_not_removed 1),
    processList_cons_kept _ _ _ (fSusAt_not_removed 2),
    processList_cons_kept _ _ _ (fSusAt_not_removed 3),
    processList_cons_kept _ _ _ (fSusAt_not_removed 4),
    processList_nil]

lemma sFull_survivors_length : (processList 1 sFull.formations).1.length = 5 := by
  rw [processList_sFull]
  rfl

lemma sFull_at_capacity :
    sFull.maxFormations ≤ (processList 1 sFull.formations).1.length := by
  rw [sFull_survivors_length]
  exact le_refl 5

lemma WF_sDead : WF sDead := by
  refine ⟨?_, ?_⟩
  · simp [liveIds, sDead]
  · intro i hi
    simp only [liveIds, sDead, List.map_cons, List.map_nil, List.mem_cons,
      List.not_mem_nil, or_false] at hi
    subst hi
    show fDead.id < 1
    norm_num [fDead]

lemma stepFDead_em : (stepFormation 1 fDead).emergenceProgress ≤ 0.01 := by
  simp only [stepFormation_emergenceProgress]
  rw [show (fDead.age + 1) / fDead.lifespan = 101 / 100 by norm_num [fDead],
    emergenceOf_of_gt _ (by norm_num)]
  norm_num

lemma stepFDead_age :
    (stepFormation 1 fDead).age > (stepFormation 1 fDead).lifespan * 0.8 := by
  simp only [stepFormation_age, stepFormation_lifespan]
  norm_num [fDead]

lemma stepFFresh_uEmergence : (stepFormation 12 fFresh).uEmergence = -3 := by
  simp only [stepFormation_uEmergence]
  rw [show (fFresh.age + 12) / fFresh.lifespan = 12 / 10 by norm_num [fFresh],
    emergenceOf_of_gt _ (by norm_num)]
  norm_num

lemma length_500 : (Vec3.mk 5 0 0).length = 5 := by
  show Real.sqrt ((5 : ℝ) ^ 2 + 0 ^ 2 + 0 ^ 2) = 5
  rw [show (5 : ℝ) ^ 2 + 0 ^ 2 + 0 ^ 2 = 5 ^ 2 by norm_num]
  exact Real.sqrt_sq (by norm_num)

lemma normalize_500 : (Vec3.mk 5 0 0).normalize = Vec3.mk 1 0 0 := by
  unfold Vec3.normalize
  simp only [length_500]
  rw [if_neg (by norm_num : ¬ (5 : ℝ) = 0)]
  unfold Vec3.smul
  ext <;> norm_num

lemma em_fBreatheA : emergenceOf ((fBreatheA.age + 1) / fBreatheA.lifespan) = 1 := by
  rw [show (fBreatheA.age + 1) / fBreatheA.lifespan = 0.5 by norm_num [fBreatheA]]
  exact emergenceOf_of_mid _ (by norm_num) (by norm_num)

lemma em_fBreatheB : emergenceOf ((fBreatheB.age + 1) / fBreatheB.lifespan) = 1 := by
  rw [show (fBreatheB.age + 1) / fBreatheB.lifespan = 0.5
    by norm_num [fBreatheB, fBreatheA]]
  exact emergenceOf_of_mid _ (by norm_num) (by norm_num)

lemma sin_fBreatheA_phase : Real.sin ((fBreatheA.phase + 1 * 0.3) * 0.5) = 1 := by
  rw [show (fBreatheA.phase + 1 * 0.3) * 0.5 = Real.pi / 2 by
    show ((Real.pi - 0.3) + 1 * 0.3) * 0.5 = Real.pi / 2
    ring]
  exact Real.sin_pi_div_two

lemma sin_fBreatheB_phase : Real.sin ((fBreatheB.phase + 1 * 0.3) * 0.5) = 1 := by
  rw [show (fBreatheB.phase + 1 * 0.3) * 0.5 = Real.pi / 2 by
    show ((Real.pi - 0.3) + 1 * 0.3) * 0.5 = Real.pi / 2
    ring]
  exact Real.sin_pi_div_two

lemma pos_fBreatheA : (stepFormation 1 fBreatheA).position = Vec3.mk 7.16 0 0 := by
  rw [stepFormation_position_eq, em_fBreatheA, sin_fBreatheA_phase,
    show fBreatheA.basePosition = Vec3.mk 5 0 0 from rfl, normalize_500]
  ext <;> simp [Vec3.add, Vec3.smul, fBreatheA] <;> try norm_num

lemma pos_fBreatheB : (stepFormation 1 fBreatheB).position = Vec3.mk 6.08 0 0 := by
  rw [stepFormation_position_eq, em_fBreatheB, sin_fBreatheB_phase,
    show fBreatheB.basePosition = Vec3.mk 5 0 0 from rfl, normalize_500]
  ext <;> simp [Vec3.add, Vec3.smul, fBreatheB, fBreatheA] <;> try norm_num

lemma claimed_fBreatheA (a : ℝ) :
    claimedPosition a (stepFormation 1 fBreatheA) = Vec3.mk (7 + a) 0 0 := by
  unfold claimedPosition
  simp only [stepFormation_basePosition, stepFormation_maxHeight,
    stepFormation_emergenceProgress, stepFormation_phase]
  rw [em_fBreatheA, sin_fBreatheA_phase,
    show fBreatheA.basePosition = Vec3.mk 5 0 0 from rfl, normalize_500]
  ext <;> simp [Vec3.add, Vec3.smul, fBreatheA] <;> try ring

lemma claimed_fBreatheB (a : ℝ) :
    claimedPosition a (stepFormation 1 fBreatheB) = Vec3.mk (6 + a) 0 0 := by
  unfold claimedPosition
  simp only [stepFormation_basePosition, stepFormation_maxHeight,
    stepFormation_emergenceProgress, stepFormation_phase]
  rw [em_fBreatheB, sin_fBreatheB_phase,
    show fBreatheB.basePosition = Vec3.mk 5 0 0 from rfl, normalize_500]
  ext <;> simp [Vec3.add, Vec3.smul, fBreatheB, fBreatheA] <;> try ring

/-! ### The weighted selector -/

lemma selectLoop_cons (w : ℝ) (rest : List ℝ) (r : ℝ) :
    selectLoop (w :: rest) r =
      if r - w ≤ 0 then some 0 else (selectLoop rest (r - w)).map Nat.succ := rfl

lemma totalWeight_shipped : totalWeight shippedWeights = 9 := by
  unfold totalWeight shippedWeights
  norm_num [List.foldl]

lemma sel_eval0 (u : ℝ) (h : u ≤ 3) :
    selectWeightedFormation shippedWeights u = 0 := by
  unfold selectWeightedFormation shippedWeights
  rw [selectLoop_cons, if_pos (by linarith : u - 3 ≤ 0)]
  rfl

lemma sel_eval1 (u : ℝ) (h3 : 3 < u) (h5 : u ≤ 5) :
    selectWeightedFormation shippedWeights u = 1 := by
  unfold selectWeightedFormation shippedWeights
  rw [selectLoop_cons, if_neg (by push_neg; linarith : ¬ u - 3 ≤ 0),
    selectLoop_cons, if_pos (by linarith : u - 3 - 2 ≤ 0)]
  rfl

lemma sel_eval2 (u : ℝ) (h5 : 5 < u) (h7 : u ≤ 7) :
    selectWeightedFormation shippedWeights u = 2 := by
  unfold selectWeightedFormation shippedWeights
  rw [selectLoop_cons, if_neg (by push_neg; linarith : ¬ u - 3 ≤ 0),
    selectLoop_cons, if_neg (by push_neg; linarith : ¬ u - 3 - 2 ≤ 0),
    selectLoop_cons, if_pos (by linarith : u - 3 - 2 - 2 ≤ 0)]
  rfl

lemma sel_eval3 (u : ℝ) (h7 : 7 < u) (h8 : u ≤ 8) :
    selectWeightedFormation shippedWeights u = 3 := by
  unfold selectWeightedFormation shippedWeights
  rw [selectLoop_cons, if_neg (by push_neg; linarith : ¬ u - 3 ≤ 0),
    selectLoop_cons, if_neg (by push_neg; linarith : ¬ u - 3 - 2 ≤ 0),
    selectLoop_cons, if_neg (by push_neg; linarith : ¬ u - 3 - 2 - 2 ≤ 0),
    selectLoop_cons, if_pos (by linarith : u - 3 - 2 - 2 - 1 ≤ 0)]
  rfl

lemma sel_eval4 (u : ℝ) (h8 : 8 < u) (h9 : u ≤ 9) :
    selectWeightedFormation shippedWeights u = 4 := by
  unfold selectWeightedFormation shippedWeights
  rw [selectLoop_cons, if_neg (by push_neg; linarith : ¬ u - 3 ≤ 0),
    selectLoop_cons, if_neg (by push_neg; linarith : ¬ u - 3 - 2 ≤ 0),
    selectLoop_cons, if_neg (by push_neg; linarith : ¬ u - 3 - 2 - 2 ≤ 0),
    selectLoop_cons, if_neg (by push_neg; linarith : ¬ u - 3 - 2 - 2 - 1 ≤ 0),
    selectLoop_cons, if_pos (by linarith : u - 3 - 2 - 2 - 1 - 1 ≤ 0)]
  rfl

/-! ### Claim theorems -/

/-- C1: From construction onward, for every sequence of `update(deltaTime)`
calls, the number of live formations (`this.formations.length`) is at most the
configured capacity `maxFormations = 5` at every point in time; each tick the
timer-driven spawn adds at most one formation, and adds it only when the
population is strictly below capacity. -/
theorem bounded_population (r : ℝ) (draws : ℕ → SpawnDraw)
    (inputs : List (ℝ × SpawnDraw)) :
    (run inputs (initEngine r draws)).formations.length ≤ 5 ∧
    (initEngine r draws).maxFormations = 5 ∧
    (∀ (dt : ℝ) (d : SpawnDraw) (s : EngineState),
      (update dt d s).1.formations.length ≤
        (processList dt s.formations).1.length + 1) ∧
    (∀ (dt : ℝ) (d : SpawnDraw) (s : EngineState),
      s.maxFormations ≤ (processList dt s.formations).1.length →
        (update dt d s).1.formations = (processList dt s.formations).1) := by
  refine ⟨?_, rfl, ?_, ?_⟩
  · have h := run_length_le inputs (initEngine r draws)
      (by rw [initEngine_formations_length, initEngine_maxFormations])
    rwa [initEngine_maxFormations] at h
  · intro dt d s
    by_cases hc : s.spawnTimer + dt > s.spawnInterval ∧
        (processList dt s.formations).1.length < s.maxFormations
    · rw [update_def_pos dt d s hc]
      simp
    · rw [update_def_neg dt d s hc]
      simp
  · intro dt d s h
    rw [update_no_spawn_at_capacity dt d s h]

/-- Witness for C1: a concrete one-tick run stays at capacity 5, and `update`
at the concrete at-capacity state `sFull` performs no spawn. -/
theorem bounded_population_witness :
    (run [(1, d0)] (initEngine 5 draws0)).formations.length ≤ 5 ∧
    (update 1 d0 sFull).1.formations = (processList 1 sFull.formations).1 :=
  ⟨(bounded_population 5 draws0 [(1, d0)]).1,
   (bounded_population 5 draws0 []).2.2.2 1 d0 sFull sFull_at_capacity⟩

/-- C10: At construction time, before any update tick, the engine creates
exactly `maxFormations = 5` formations, so the population starts at capacity;
and a tick whose post-removal population is still at capacity spawns nothing,
so no timer-driven spawn can occur until a formation is removed — a strict
population shrink being possible only when some formation meets the removal
test. -/
theorem initial_population_at_capacity (r : ℝ) (draws : ℕ → SpawnDraw) :
    (initEngine r draws).formations.length = (initEngine r draws).maxFormations ∧
    (initEngine r draws).maxFormations = 5 ∧
    (∀ (dt : ℝ) (d : SpawnDraw) (s : EngineState),
      s.maxFormations ≤ (processList dt s.formations).1.length →
        (update dt d s).1.formations = (processList dt s.formations).1 ∧
        (update dt d s).1.nextId = s.nextId) ∧
    (∀ (dt : ℝ) (fs : List Formation),
      (processList dt fs).1.length < fs.length →
        ∃ f ∈ fs, shouldRemove (stepFormation dt f)) := by
  refine ⟨?_, rfl, ?_, processList_length_lt⟩
  · rw [initEngine_formations_length]
    rfl
  · intro dt d s h
    rw [update_no_spawn_at_capacity dt d s h]
    exact ⟨rfl, rfl⟩

/-- Witness for C10: the freshly constructed engine holds 5 formations, and at
the concrete at-capacity state `sFull` a tick neither spawns nor allocates a
new id. -/
theorem initial_population_at_capacity_witness :
    (initEngine 5 draws0).formations.length = (initEngine 5 draws0).maxFormations ∧
    (update 1 d0 sFull).1.nextId = sFull.nextId :=
  ⟨(initial_population_at_capacity 5 draws0).1,
   ((initial_population_at_capacity 5 draws0).2.2.1 1 d0 sFull sFull_at_capacity).2⟩

/-- C6 counterexample: at the concrete state `sFull` (population at capacity,
five sustained formations) a tick of `dt = 1` makes the timer exceed the
interval (`8 + 1 > 8`), yet after the tick the spawn timer holds `9`, not `0`:
the claim's assertion that "the spawn timer is reset on that tick" is false —
the timer is only reset when a spawn actually fires. -/
theorem spawn_timer_not_reset_cex :
    sFull.spawnTimer + 1 > sFull.spawnInterval ∧
    sFull.formations.length = sFull.maxFormations ∧
    (processList 1 sFull.formations).1.length = sFull.maxFormations ∧
    (update 1 d0 sFull).1.spawnTimer = 9 ∧ ((9 : ℝ) ≠ 0) := by
  refine ⟨by norm_num [sFull], rfl, ?_, ?_, by norm_num⟩
  · rw [sFull_survivors_length]
    rfl
  · rw [update_no_spawn_at_capacity 1 d0 sFull sFull_at_capacity]
    show sFull.spawnTimer + 1 = 9
    norm_num [sFull]

/-- C6 (amended): if the live population is (still) at capacity on a tick, the
spawn is dropped, not queued: the population does not grow and no error is
raised.  But the spawn timer is NOT reset on that tick — it keeps
accumulating (`spawnTimer' = spawnTimer + dt`) — so one spawn occurs on the
first subsequent tick whose post-removal population is below capacity while
the timer is past the interval, and only then is the timer reset to 0; at most
one formation is spawned per tick, so capacity freeing up produces no burst
of more than one spawn on a tick. -/
theorem spawn_dropped_at_capacity (s : EngineState) (dt : ℝ) (d : SpawnDraw)
    (hcap : s.maxFormations ≤ (processList dt s.formations).1.length) :
    (update dt d s).1.formations = (processList dt s.formations).1 ∧
    (update dt d s).1.formations.length ≤ s.formations.length ∧
    (update dt d s).1.spawnTimer = s.spawnTimer + dt ∧
    (update dt d s).1.nextId = s.nextId ∧
    (∀ (s2 : EngineState) (dt2 : ℝ) (d2 : SpawnDraw),
      (update dt2 d2 s2).1.formations.length ≤
        (processList dt2 s2.formations).1.length + 1 ∧
      (s2.spawnTimer + dt2 > s2.spawnInterval →
        (processList dt2 s2.formations).1.length < s2.maxFormations →
          (update dt2 d2 s2).1.spawnTimer = 0 ∧
          (update dt2 d2 s2).1.formations.length =
            (processList dt2 s2.formations).1.length + 1)) := by
  rw [update_no_spawn_at_capacity dt d s hcap]
  refine ⟨rfl, processList_length_le dt s.formations, rfl, rfl, ?_⟩
  intro s2 dt2 d2
  constructor
  · by_cases hc2 : s2.spawnTimer + dt2 > s2.spawnInterval ∧
        (processList dt2 s2.formations).1.length < s2.maxFormations
    · rw [update_def_pos dt2 d2 s2 hc2]
      simp
    · rw [update_def_neg dt2 d2 s2 hc2]
      simp
  · intro hA hB
    rw [update_def_pos dt2 d2 s2 ⟨hA, hB⟩]
    refine ⟨rfl, ?_⟩
    simp

/-- Witness for C6 (amended), at the concrete at-capacity state `sFull`:
the timer accumulates to `8 + 1` instead of resetting. -/
theorem spawn_dropped_at_capacity_witness :
    (update 1 d0 sFull).1.spawnTimer = sFull.spawnTimer + 1 :=
  (spawn_dropped_at_capacity sFull 1 d0 sFull_at_capacity).2.2.1

/-- On a well-formed tick, the `remove` event for a live formation is emitted
iff the formation meets the removal test after its step. -/
lemma remove_mem_update_iff (dt : ℝ) (d : SpawnDraw) (s : EngineState)
    (f : Formation) (hW : WF s) (hf : f ∈ s.formations) :
    REvent.remove f.id ∈ (update dt d s).2 ↔ shouldRemove (stepFormation dt f) := by
  rw [update_snd]
  constructor
  · intro hrm
    by_contra hns
    have heq := eventsFor_processList dt s.formations f hW.1 hf
    rw [if_neg hns] at heq
    have hmem2 : REvent.remove f.id ∈
        eventsFor f.id (processList dt s.formations).2 := by
      rw [eventsFor, List.mem_filter]
      exact ⟨hrm, by simp [REvent.idOf]⟩
    rw [heq] at hmem2
    exact List.not_mem_nil _ hmem2
  · intro hsr
    have heq := eventsFor_processList dt s.formations f hW.1 hf
    rw [if_pos hsr] at heq
    have hmem2 : REvent.remove f.id ∈
        eventsFor f.id (processList dt s.formations).2 := by
      rw [heq]
      simp
    exact List.mem_of_mem_filter hmem2

/-- On a well-formed tick, a live formation stays in the live list iff it does
not meet the removal test after its step. -/
lemma id_mem_liveIds_update_iff (dt : ℝ) (d : SpawnDraw) (s : EngineState)
    (f : Formation) (hW : WF s) (hf : f ∈ s.formations) :
    f.id ∈ liveIds (update dt d s).1 ↔ ¬ shouldRemove (stepFormation dt f) := by
  constructor
  · intro hmem hsr
    rcases mem_liveIds_update dt d s f.id hmem with hm | heq
    · exact ((id_mem_processList_iff dt s.formations f hW.1 hf).mp hm) hsr
    · exact absurd (heq ▸ hW.2 f.id (List.mem_map_of_mem Formation.id hf))
        (lt_irrefl _)
  · intro hns
    have hm : f.id ∈ (processList dt s.formations).1.map Formation.id :=
      (id_mem_processList_iff dt s.formations f hW.1 hf).mpr hns
    by_cases hc : s.spawnTimer + dt > s.spawnInterval ∧
        (processList dt s.formations).1.length < s.maxFormations
    · rw [update_def_pos dt d s hc]
      simp only [liveIds, List.map_append, List.mem_append]
      exact Or.inl hm
    · rw [update_def_neg dt d s hc]
      exact hm

/-- C2: over any run of ticks from a well-formed engine state, the render
backend receives, for each formation, either no disposal events or exactly one
`remove` followed immediately by one `release` — at most one such pair over
the whole run, both inside a single tick; the `remove` is emitted on a tick
iff the formation was live at its start and its end-of-life test
(`shouldRemove` after the per-instance step) holds on that tick, and the
formation then leaves the live population on that same tick. -/
theorem disposal_exactly_once (s : EngineState) (inputs : List (ℝ × SpawnDraw))
    (i : ℕ) (hW : WF s) :
    (∀ evs ∈ runTrace inputs s,
      eventsFor i evs = [] ∨
        eventsFor i evs = [REvent.remove i, REvent.release i]) ∧
    (eventsFor i (flat (runTrace inputs s)) = [] ∨
      eventsFor i (flat (runTrace inputs s)) =
        [REvent.remove i, REvent.release i]) ∧
    (∀ (pre : List (ℝ × SpawnDraw)) (dt : ℝ) (d : SpawnDraw)
        (suff : List (ℝ × SpawnDraw)),
      inputs = pre ++ (dt, d) :: suff →
        (REvent.remove i ∈ (update dt d (run pre s)).2 ↔
          ∃ f ∈ (run pre s).formations,
            f.id = i ∧ shouldRemove (stepFormation dt f)) ∧
        (REvent.remove i ∈ (update dt d (run pre s)).2 →
          i ∉ liveIds (update dt d (run pre s)).1)) := by
  refine ⟨trace_tick_dichotomy inputs s i hW, trace_flat_dichotomy inputs s i hW, ?_⟩
  intro pre dt d suff _
  have hWpre : WF (run pre s) := WF_run pre s hW
  refine ⟨⟨?_, ?_⟩, ?_⟩
  · intro hrm
    have hidmem : i ∈ (run pre s).formations.map Formation.id := by
      rw [update_snd] at hrm
      have h2 := processList_events_idOf_mem dt (run pre s).formations _ hrm
      simpa [REvent.idOf] using h2
    obtain ⟨f, hf, rfl⟩ := List.mem_map.mp hidmem
    exact ⟨f, hf, rfl, (remove_mem_update_iff dt d (run pre s) f hWpre hf).mp hrm⟩
  · rintro ⟨f, hf, rfl, hsr⟩
    exact (remove_mem_update_iff dt d (run pre s) f hWpre hf).mpr hsr
  · intro hrm
    have hne : eventsFor i (update dt d (run pre s)).2 ≠ [] := by
      intro hnil
      have hmem2 : REvent.remove i ∈ eventsFor i (update dt d (run pre s)).2 := by
        rw [eventsFor, List.mem_filter]
        exact ⟨hrm, by simp [REvent.idOf]⟩
      rw [hnil] at hmem2
      exact List.not_mem_nil _ hmem2
    exact (removed_event_dead dt d (run pre s) i hWpre hne).2.1

/-- Witness for C2: the disposal dichotomy instantiated on a concrete one-tick
run from the freshly constructed engine. -/
theorem disposal_exactly_once_witness :
    eventsFor 0 (flat (runTrace [(1, d0)] (initEngine 5 draws0))) = [] ∨
    eventsFor 0 (flat (runTrace [(1, d0)] (initEngine 5 draws0))) =
      [REvent.remove 0, REvent.release 0] :=
  (disposal_exactly_once (initEngine 5 draws0) [(1, d0)] 0
    (WF_initEngine 5 draws0)).2.1

/-- C5: on any well-formed tick, a live formation is removed and disposed iff,
after that tick's per-instance update, both `emergenceProgress ≤ 0.01` and
`age > lifespan * 0.8` hold together: its `remove` event is emitted exactly
then, and it stays in the live population exactly when the conjunction fails —
so neither condition alone ever triggers removal. -/
theorem removal_iff_both_conditions (s : EngineState) (dt : ℝ) (d : SpawnDraw)
    (f : Formation) (hW : WF s) (hf : f ∈ s.formations) :
    (REvent.remove f.id ∈ (update dt d s).2 ↔
      ((stepFormation dt f).emergenceProgress ≤ 0.01 ∧
        (stepFormation dt f).age > (stepFormation dt f).lifespan * 0.8)) ∧
    (f.id ∈ liveIds (update dt d s).1 ↔
      ¬ ((stepFormation dt f).emergenceProgress ≤ 0.01 ∧
        (stepFormation dt f).age > (stepFormation dt f).lifespan * 0.8)) :=
  ⟨remove_mem_update_iff dt d s f hW hf, id_mem_liveIds_update_iff dt d s f hW hf⟩

/-- Witness for C5: at the concrete one-formation state `sDead`, a `dt = 1`
tick makes both end-of-life conditions true and the `remove` event is
emitted. -/
theorem removal_iff_both_conditions_witness :
    REvent.remove fDead.id ∈ (update 1 d0 sDead).2 :=
  (removal_iff_both_conditions sDead 1 d0 fDead WF_sDead
    (List.mem_cons_self _ _)).1.mpr ⟨stepFDead_em, stepFDead_age⟩

/-- C3 counterexample: a single `update(12)` tick on a fresh formation with
lifespan 10 pushes age/lifespan to 1.2 > 1; the recomputed emergence is
`1 - ((1.2 - 0.8)/0.2)^2 = -3 < 0`, and that unclamped value is what the tick
writes into the drawable's `uEmergence` uniform (the uniform write happens
before the removal check).  This refutes the claim that the pushed value is
never below 0 "including on ticks where age/lifespan has exceeded 1". -/
theorem emergence_pushed_negative_cex :
    (stepFormation 12 fFresh).age / (stepFormation 12 fFresh).lifespan > 1 ∧
    (stepFormation 12 fFresh).uEmergence = -3 ∧
    ¬ (0 ≤ (stepFormation 12 fFresh).uEmergence) := by
  refine ⟨?_, stepFFresh_uEmergence, ?_⟩
  · simp only [stepFormation_age, stepFormation_lifespan]
    norm_num [fFresh]
  · rw [stepFFresh_uEmergence]
    norm_num

/-- C3 (amended): the recomputed per-tick emergence — which is exactly the
value pushed into `uEmergence` — never exceeds 1; it lies in `[0, 1]` on every
tick where the updated age stays within the lifespan; but on a tick where
age/lifespan exceeds 1 it is strictly negative (the code does not clamp). -/
theorem emergence_range_amended (dt : ℝ) (f : Formation) (h0 : 0 ≤ f.age)
    (h1 : 0 ≤ dt) (h2 : 0 < f.lifespan) :
    (stepFormation dt f).uEmergence ≤ 1 ∧
    (stepFormation dt f).uEmergence = (stepFormation dt f).emergenceProgress ∧
    (f.age + dt ≤ f.lifespan → 0 ≤ (stepFormation dt f).uEmergence) ∧
    (f.lifespan < f.age + dt → (stepFormation dt f).uEmergence < 0) := by
  have hp0 : 0 ≤ (f.age + dt) / f.lifespan := div_nonneg (by linarith) h2.le
  refine ⟨?_, rfl, ?_, ?_⟩
  · simp only [stepFormation_uEmergence]
    exact emergenceOf_le_one _ hp0
  · intro hle
    simp only [stepFormation_uEmergence]
    exact emergenceOf_nonneg _ hp0 ((div_le_one h2).mpr hle)
  · intro hlt
    simp only [stepFormation_uEmergence]
    exact emergenceOf_neg _ ((one_lt_div h2).mpr hlt)

/-- Witness for C3 (amended): a `dt = 5` tick on the fresh formation keeps the
pushed uniform value at most 1. -/
theorem emergence_range_amended_witness :
    (stepFormation 5 fFresh).uEmergence ≤ 1 :=
  (emergence_range_amended 5 fFresh (by norm_num [fFresh]) (by norm_num)
    (by norm_num [fFresh])).1

/-- C4: the per-tick update recomputes every live formation's emergence as the
spec's piecewise curve with `p_emerge = 0.4`, sub-linear exponent `k = 0.7`,
`p_dissolve = 0.8` and `m = 2`: the source curve agrees with the
spec-transcribed curve at every progress value; on the stepped formation it is
evaluated at `progress = (age + dt)/lifespan`; the three branches are
`(progress/0.4)^0.7` (emerging), exactly 1 (sustained, no drift), and
`1 - ((progress - 0.8)/(1 - 0.8))^2` (dissolving), reaching 0 at end of life. -/
theorem emergence_piecewise_matches_spec :
    (∀ p : ℝ, emergenceOf p = emergenceSpec p) ∧
    (∀ (dt : ℝ) (f : Formation),
      (stepFormation dt f).emergenceProgress =
        emergenceSpec ((f.age + dt) / f.lifespan)) ∧
    (∀ p : ℝ, p < 0.4 → emergenceSpec p = (p / 0.4) ^ (0.7 : ℝ)) ∧
    (∀ p : ℝ, 0.4 ≤ p → p ≤ 0.8 → emergenceSpec p = 1) ∧
    (∀ p : ℝ, 0.8 < p → emergenceSpec p = 1 - ((p - 0.8) / (1 - 0.8)) ^ 2) ∧
    emergenceSpec 1 = 0 := by
  refine ⟨emergenceOf_eq_emergenceSpec, ?_, ?_, ?_, ?_, ?_⟩
  · intro dt f
    rw [stepFormation_emergenceProgress, emergenceOf_eq_emergenceSpec]
  · intro p h
    rw [← emergenceOf_eq_emergenceSpec, emergenceOf_of_lt p h]
  · intro p hA hB
    rw [← emergenceOf_eq_emergenceSpec, emergenceOf_of_mid p hA hB]
  · intro p h
    rw [← emergenceOf_eq_emergenceSpec, emergenceOf_of_gt p h]
    norm_num
  · rw [← emergenceOf_eq_emergenceSpec, emergenceOf_one]

/-- Witness for C4: the sustained branch evaluated at progress 0.5. -/
theorem emergence_piecewise_matches_spec_witness :
    emergenceSpec 0.5 = 1 :=
  emergence_piecewise_matches_spec.2.2.2.1 0.5 (by norm_num) (by norm_num)

/-- C7 counterexample: no fixed amplitude makes the claim's position formula
match the code.  Two concrete sustained formations that differ only in
`maxHeight` (2 vs 1) reach, after one tick, positions `(7.16, 0, 0)` and
`(6.08, 0, 0)`, while the claimed formula gives `(7 + a, 0, 0)` and
`(6 + a, 0, 0)`: the first forces `a = 0.16`, the second `a = 0.08`.  The
code's breathing offset is scaled by `surfaceHeight = maxHeight * emergence`
(because `normal.multiplyScalar(surfaceHeight)` mutated `normal` before the
breathing add), not by a fixed small amplitude. -/
theorem breathing_term_cex :
    ¬ ∃ a : ℝ,
      (stepFormation 1 fBreatheA).position =
        claimedPosition a (stepFormation 1 fBreatheA) ∧
      (stepFormation 1 fBreatheB).position =
        claimedPosition a (stepFormation 1 fBreatheB) := by
  rintro ⟨a, h1, h2⟩
  rw [pos_fBreatheA, claimed_fBreatheA] at h1
  rw [pos_fBreatheB, claimed_fBreatheB] at h2
  rw [Vec3.mk.injEq] at h1 h2
  obtain ⟨hx1, -, -⟩ := h1
  obtain ⟨hx2, -, -⟩ := h2
  norm_num at hx1 hx2
  linarith

/-- C7 (amended): after each per-tick update
`position = basePosition + n̂ * (maxHeight * emergence * (1 + sin(phase*0.5) *
0.08 * emergence))` with `n̂ = normalize(basePosition)` — a unit vector when
`basePosition` is nonzero — and the updated phase and emergence: the breathing
wobble is proportional to `surfaceHeight = maxHeight * emergence` rather than
to a fixed amplitude; it still vanishes with emergence, and at emergence 0 the
position is exactly `basePosition`, so fully-dissolved instances do not
jitter. -/
theorem position_formula_amended (dt : ℝ) (f : Formation)
    (hb : f.basePosition.length ≠ 0) :
    (stepFormation dt f).position =
      f.basePosition.add
        (Vec3.smul
          (f.maxHeight * (stepFormation dt f).emergenceProgress *
            (1 + Real.sin ((stepFormation dt f).phase * 0.5) * 0.08 *
              (stepFormation dt f).emergenceProgress))
          f.basePosition.normalize) ∧
    f.basePosition.normalize.length = 1 ∧
    ((stepFormation dt f).emergenceProgress = 0 →
      (stepFormation dt f).position = f.basePosition) := by
  refine ⟨?_, Vec3.length_normalize f.basePosition hb, ?_⟩
  · simp only [stepFormation_emergenceProgress, stepFormation_phase]
    exact stepFormation_position_eq dt f
  · intro h
    simp only [stepFormation_emergenceProgress] at h
    exact stepFormation_position_of_emergence_zero dt f h

/-- Witness for C7 (amended): the surface normal at the concrete formation
`fBreatheA` is a unit vector. -/
theorem position_formula_amended_witness :
    fBreatheA.basePosition.normalize.length = 1 :=
  (position_formula_amended 1 fBreatheA
    (by rw [show fBreatheA.basePosition = Vec3.mk 5 0 0 from rfl, length_500]
        norm_num)).2.1

/-- C8: every spawned formation's `basePosition`, computed from the two
uniform angle draws (`phi = rand * 2π ∈ [0, 2π)`, `theta = rand * π ∈ [0, π)`)
by the spherical-to-Cartesian conversion, lies exactly on the sphere of the
configured ocean radius: `|basePosition| = oceanRadius` for any nonnegative
radius (5 by default); and the per-tick update never changes a formation's
stored `basePosition`. -/
theorem base_position_on_sphere (r : ℝ) (i : ℕ) (d : SpawnDraw) (hr : 0 ≤ r) :
    (addFormationToScene r i d).basePosition.length = r ∧
    (0 ≤ d.phi01 → d.phi01 < 1 →
      0 ≤ d.phi01 * (2 * Real.pi) ∧ d.phi01 * (2 * Real.pi) < 2 * Real.pi) ∧
    (0 ≤ d.theta01 → d.theta01 < 1 →
      0 ≤ d.theta01 * Real.pi ∧ d.theta01 * Real.pi < Real.pi) ∧
    (∀ (dt : ℝ) (f : Formation),
      (stepFormation dt f).basePosition = f.basePosition) := by
  refine ⟨?_, ?_, ?_, fun dt f => rfl⟩
  · show Real.sqrt
      ((r * Real.sin (d.theta01 * Real.pi) * Real.cos (d.phi01 * (2 * Real.pi))) ^ 2 +
        (r * Real.sin (d.theta01 * Real.pi) * Real.sin (d.phi01 * (2 * Real.pi))) ^ 2 +
        (r * Real.cos (d.theta01 * Real.pi)) ^ 2) = r
    have h1 : Real.cos (d.phi01 * (2 * Real.pi)) ^ 2 +
        Real.sin (d.phi01 * (2 * Real.pi)) ^ 2 = 1 :=
      Real.cos_sq_add_sin_sq _
    have h2 : Real.sin (d.theta01 * Real.pi) ^ 2 +
        Real.cos (d.theta01 * Real.pi) ^ 2 = 1 :=
      Real.sin_sq_add_cos_sq _
    rw [show (r * Real.sin (d.theta01 * Real.pi) * Real.cos (d.phi01 * (2 * Real.pi))) ^ 2 +
        (r * Real.sin (d.theta01 * Real.pi) * Real.sin (d.phi01 * (2 * Real.pi))) ^ 2 +
        (r * Real.cos (d.theta01 * Real.pi)) ^ 2 = r ^ 2 by
      linear_combination (r ^ 2 * Real.sin (d.theta01 * Real.pi) ^ 2) * h1 + r ^ 2 * h2]
    exact Real.sqrt_sq hr
  · intro hA hB
    exact ⟨mul_nonneg hA (by positivity), mul_lt_of_lt_one_left (by positivity) hB⟩
  · intro hA hB
    exact ⟨mul_nonneg hA Real.pi_pos.le, mul_lt_of_lt_one_left Real.pi_pos hB⟩

/-- Witness for C8: the formation spawned from the concrete draw `d0` at
radius 5 sits at distance exactly 5 from the origin. -/
theorem base_position_on_sphere_witness :
    (addFormationToScene 5 0 d0).basePosition.length = 5 :=
  (base_position_on_sphere 5 0 d0 (by norm_num)).1

/-- Interval characterization of the selection loop on the shipped weights:
for a draw in `[0, 9)` the selected index is determined by which consecutive
weight-length interval the draw falls into. -/
lemma sel_iff (u : ℝ) (_h0 : 0 ≤ u) (h9 : u < 9) :
    (selectWeightedFormation shippedWeights u = 0 ↔ u ≤ 3) ∧
    (selectWeightedFormation shippedWeights u = 1 ↔ 3 < u ∧ u ≤ 5) ∧
    (selectWeightedFormation shippedWeights u = 2 ↔ 5 < u ∧ u ≤ 7) ∧
    (selectWeightedFormation shippedWeights u = 3 ↔ 7 < u ∧ u ≤ 8) ∧
    (selectWeightedFormation shippedWeights u = 4 ↔ 8 < u) := by
  rcases le_or_lt u 3 with hA | hA
  · rw [sel_eval0 u hA]
    exact ⟨⟨fun _ => hA, fun _ => rfl⟩,
      ⟨fun h => absurd h (by norm_num), fun h => absurd h.1 (by linarith)⟩,
      ⟨fun h => absurd h (by norm_num), fun h => absurd h.1 (by linarith)⟩,
      ⟨fun h => absurd h (by norm_num), fun h => absurd h.1 (by linarith)⟩,
      ⟨fun h => absurd h (by norm_num), fun h => absurd h (by linarith)⟩⟩
  · rcases le_or_lt u 5 with hB | hB
    · rw [sel_eval1 u hA hB]
      exact ⟨⟨fun h => absurd h (by norm_num), fun h => absurd h (by linarith)⟩,
        ⟨fun _ => ⟨hA, hB⟩, fun _ => rfl⟩,
        ⟨fun h => absurd h (by norm_num), fun h => absurd h.1 (by linarith)⟩,
        ⟨fun h => absurd h (by norm_num), fun h => absurd h.1 (by linarith)⟩,
        ⟨fun h => absurd h (by norm_num), fun h => absurd h (by linarith)⟩⟩
    · rcases le_or_lt u 7 with hC | hC
      · rw [sel_eval2 u hB hC]
        exact ⟨⟨fun h => absurd h (by norm_num), fun h => absurd h (by linarith)⟩,
          ⟨fun h => absurd h (by norm_num), fun h => absurd h.2 (by linarith)⟩,
          ⟨fun _ => ⟨hB, hC⟩, fun _ => rfl⟩,
          ⟨fun h => absurd h (by norm_num), fun h => absurd h.1 (by linarith)⟩,
          ⟨fun h => absurd h (by norm_num), fun h => absurd h (by linarith)⟩⟩
      · rcases le_or_lt u 8 with hD | hD
        · rw [sel_eval3 u hC hD]
          exact ⟨⟨fun h => absurd h (by norm_num), fun h => absurd h (by linarith)⟩,
            ⟨fun h => absurd h (by norm_num), fun h => absurd h.2 (by linarith)⟩,
            ⟨fun h => absurd h (by norm_num), fun h => absurd h.2 (by linarith)⟩,
            ⟨fun _ => ⟨hC, hD⟩, fun _ => rfl⟩,
            ⟨fun h => absurd h (by norm_num), fun h => absurd h (by linarith)⟩⟩
        · rw [sel_eval4 u hD h9.le]
          exact ⟨⟨fun h => absurd h (by norm_num), fun h => absurd h (by linarith)⟩,
            ⟨fun h => absurd h (by norm_num), fun h => absurd h.2 (by linarith)⟩,
            ⟨fun h => absurd h (by norm_num), fun h => absurd h.2 (by linarith)⟩,
            ⟨fun h => absurd h (by norm_num), fun h => absurd h.2 (by linarith)⟩,
            ⟨fun _ => hD, fun _ => rfl⟩⟩

lemma sel_region0 :
    {u : ℝ | (0 ≤ u ∧ u < 9) ∧ selectWeightedFormation shippedWeights u = 0} =
      Set.Icc 0 3 := by
  ext u
  simp only [Set.mem_setOf_eq, Set.mem_Icc]
  constructor
  · rintro ⟨⟨h0, h9⟩, hsel⟩
    exact ⟨h0, ((sel_iff u h0 h9).1).mp hsel⟩
  · rintro ⟨h0, h3⟩
    have h9 : u < 9 := by linarith
    exact ⟨⟨h0, h9⟩, ((sel_iff u h0 h9).1).mpr h3⟩

lemma sel_region1 :
    {u : ℝ | (0 ≤ u ∧ u < 9) ∧ selectWeightedFormation shippedWeights u = 1} =
      Set.Ioc 3 5 := by
  ext u
  simp only [Set.mem_setOf_eq, Set.mem_Ioc]
  constructor
  · rintro ⟨⟨h0, h9⟩, hsel⟩
    exact ((sel_iff u h0 h9).2.1).mp hsel
  · rintro ⟨h3, h5⟩
    have h0 : (0 : ℝ) ≤ u := by linarith
    have h9 : u < 9 := by linarith
    exact ⟨⟨h0, h9⟩, ((sel_iff u h0 h9).2.1).mpr ⟨h3, h5⟩⟩

lemma sel_region2 :
    {u : ℝ | (0 ≤ u ∧ u < 9) ∧ selectWeightedFormation shippedWeights u = 2} =
      Set.Ioc 5 7 := by
  ext u
  simp only [Set.mem_setOf_eq, Set.mem_Ioc]
  constructor
  · rintro ⟨⟨h0, h9⟩, hsel⟩
    exact ((sel_iff u h0 h9).2.2.1).mp hsel
  · rintro ⟨h5, h7⟩
    have h0 : (0 : ℝ) ≤ u := by linarith
    have h9 : u < 9 := by linarith
    exact ⟨⟨h0, h9⟩, ((sel_iff u h0 h9).2.2.1).mpr ⟨h5, h7⟩⟩

lemma sel_region3 :
    {u : ℝ | (0 ≤ u ∧ u < 9) ∧ selectWeightedFormation shippedWeights u = 3} =
      Set.Ioc 7 8 := by
  ext u
  simp only [Set.mem_setOf_eq, Set.mem_Ioc]
  constructor
  · rintro ⟨⟨h0, h9⟩, hsel⟩
    exact ((sel_iff u h0 h9).2.2.2.1).mp hsel
  · rintro ⟨h7, h8⟩
    have h0 : (0 : ℝ) ≤ u := by linarith
    have h9 : u < 9 := by linarith
    exact ⟨⟨h0, h9⟩, ((sel_iff u h0 h9).2.2.2.1).mpr ⟨h7, h8⟩⟩

lemma sel_region4 :
    {u : ℝ | (0 ≤ u ∧ u < 9) ∧ selectWeightedFormation shippedWeights u = 4} =
      Set.Ioo 8 9 := by
  ext u
  simp only [Set.mem_setOf_eq, Set.mem_Ioo]
  constructor
  · rintro ⟨⟨h0, h9⟩, hsel⟩
    exact ⟨((sel_iff u h0 h9).2.2.2.2).mp hsel, h9⟩
  · rintro ⟨h8, h9⟩
    have h0 : (0 : ℝ) ≤ u := by linarith
    exact ⟨⟨h0, h9⟩, ((sel_iff u h0 h9).2.2.2.2).mpr h8⟩

/-- C9: `selectWeightedFormation` draws one uniform `u` in `[0, Σweight) =
[0, 9)` and subtracts catalog weights in order until the remainder drops to
`≤ 0`; consequently archetype `i` is selected exactly when `u` falls in the
consecutive interval of length `weight_i` preceding it (`[0,3]`, `(3,5]`,
`(5,7]`, `(7,8]`, `(8,9)` inside the draw range), so under the uniform draw
the selection probability of archetype `i` is `weight_i / 9`: each region's
Lebesgue measure is its weight `[3, 2, 2, 1, 1]` and the whole draw range has
measure 9. -/
theorem selector_weighted_intervals :
    totalWeight shippedWeights = 9 ∧
    (∀ u : ℝ, 0 ≤ u → u < 9 →
      ((selectWeightedFormation shippedWeights u = 0 ↔ u ≤ 3) ∧
       (selectWeightedFormation shippedWeights u = 1 ↔ 3 < u ∧ u ≤ 5) ∧
       (selectWeightedFormation shippedWeights u = 2 ↔ 5 < u ∧ u ≤ 7) ∧
       (selectWeightedFormation shippedWeights u = 3 ↔ 7 < u ∧ u ≤ 8) ∧
       (selectWeightedFormation shippedWeights u = 4 ↔ 8 < u))) ∧
    ({u : ℝ | (0 ≤ u ∧ u < 9) ∧ selectWeightedFormation shippedWeights u = 0} =
      Set.Icc 0 3 ∧
     {u : ℝ | (0 ≤ u ∧ u < 9) ∧ selectWeightedFormation shippedWeights u = 1} =
      Set.Ioc 3 5 ∧
     {u : ℝ | (0 ≤ u ∧ u < 9) ∧ selectWeightedFormation shippedWeights u = 2} =
      Set.Ioc 5 7 ∧
     {u : ℝ | (0 ≤ u ∧ u < 9) ∧ selectWeightedFormation shippedWeights u = 3} =
      Set.Ioc 7 8 ∧
     {u : ℝ | (0 ≤ u ∧ u < 9) ∧ selectWeightedFormation shippedWeights u = 4} =
      Set.Ioo 8 9) ∧
    (MeasureTheory.volume (Set.Icc (0 : ℝ) 3) = ENNReal.ofReal 3 ∧
     MeasureTheory.volume (Set.Ioc (3 : ℝ) 5) = ENNReal.ofReal 2 ∧
     MeasureTheory.volume (Set.Ioc (5 : ℝ) 7) = ENNReal.ofReal 2 ∧
     MeasureTheory.volume (Set.Ioc (7 : ℝ) 8) = ENNReal.ofReal 1 ∧
     MeasureTheory.volume (Set.Ioo (8 : ℝ) 9) = ENNReal.ofReal 1 ∧
     MeasureTheory.volume (Set.Ico (0 : ℝ) 9) = ENNReal.ofReal 9) := by
  refine ⟨totalWeight_shipped, sel_iff,
    ⟨sel_region0, sel_region1, sel_region2, sel_region3, sel_region4⟩,
    ?_, ?_, ?_, ?_, ?_, ?_⟩
  · rw [Real.volume_Icc]
    norm_num
  · rw [Real.volume_Ioc]
    norm_num
  · rw [Real.volume_Ioc]
    norm_num
  · rw [Real.volume_Ioc]
    norm_num
  · rw [Real.volume_Ioo]
    norm_num
  · rw [Real.volume_Ico]
    norm_num

/-- Witness for C9: the draw `u = 4` selects archetype index 1. -/
theorem selector_weighted_intervals_witness :
    selectWeightedFormation shippedWeights 4 = 1 :=
  ((selector_weighted_intervals.2.1 4 (by norm_num) (by norm_num)).2.1).mpr
    ⟨by norm_num, by norm_num⟩

end Simulacra
